import Mathlib

/-
Verification of the pylite tree-walking interpreter (src/pylite.py).

The source defines three interpreter classes over Python AST nodes:
  - PyliteInterpreter        (deterministic strategy)
  - StochasticPyliteInterpreter (fault-injecting strategy; overrides
    visit_Name, visit_Mod and visit_If with random-draw variants)
  - BindingInterpreter       (pattern-rewriting strategy; overrides
    visit_BinOp with an ordered chain of shape patterns)

The embedding below translates the AST shapes the interpreter handles,
its environment, the host operator semantics it relies on, and the three
strategies as one evaluator parameterized by a strategy tag.  Host
randomness (random.randrange) is modelled as an explicit oracle
`rand : Nat -> Nat`, consumed through a draw counter threaded through
evaluation; a call randrange(n) at counter c yields `rand c % n` and
advances the counter.  Numbers are modelled as rationals; host
ZeroDivisionError on division by zero and the int/float distinction are
outside the model (no claim depends on them).  Mod applied to a String
left operand is the host's printf-style formatting, modelled below by
strMod; within it, decimal digit rounding is half-even on the exact
rational (the host rounds the nearest binary double — the same
numeric abstraction), and renderings of the rationals standing for
host floats are exact decimal expansions.  While loops receive
explicit fuel; running out of fuel is reported as the spec's
StackExhausted condition.
-/

namespace Pylite

/-- Operator kinds handled by visit_Add .. visit_Pow in the source. -/
inductive OpKind where
  | add
  | sub
  | mult
  | div
  | floorDiv
  | mod
  | pow
deriving DecidableEq

/-- Comparison kinds handled by visit_Lt .. visit_Gt in the source. -/
inductive CmpKind where
  | lt
  | le
  | eq
  | ne
  | ge
  | gt
deriving DecidableEq

/-- Runtime values flowing through the interpreter: numbers (visit_Num),
strings (visit_Str), booleans (produced by visit_Compare), and the host
None (returned by print and by statement visits).  No construct of the
language produces a callable value, so none is modelled. -/
inductive Value where
  | num (q : ℚ)
  | str (s : String)
  | bool (b : Bool)
  | none
deriving DecidableEq

/-- Error taxonomy surfaced by the interpreter: host NameError on
unbound variables and functions, host TypeError as typeMismatch,
fuel exhaustion as stackExhausted, and `fault` for host-level faults on
malformed trees (e.g. IndexError when a Compare has fewer ops than
comparators). -/
inductive Err where
  | undefinedVariable (name : String)
  | undefinedFunction (name : String)
  | typeMismatch
  | stackExhausted
  | fault
deriving DecidableEq

instance {ε α : Type} [DecidableEq ε] [DecidableEq α] : DecidableEq (Except ε α) := fun a b =>
  match a, b with
  | .ok x, .ok y =>
      if h : x = y then .isTrue (congrArg Except.ok h)
      else .isFalse (fun hc => h (Except.ok.inj hc))
  | .error e, .error f =>
      if h : e = f then .isTrue (congrArg Except.error h)
      else .isFalse (fun hc => h (Except.error.inj hc))
  | .ok _, .error _ => .isFalse (fun hc => Except.noConfusion hc)
  | .error _, .ok _ => .isFalse (fun hc => Except.noConfusion hc)

/-- Expression nodes the interpreter dispatches on. -/
inductive Expr where
  | num (q : ℚ)
  | str (s : String)
  | name (id : String)
  | binOp (op : OpKind) (left right : Expr)
  | compare (left : Expr) (ops : List CmpKind) (comparators : List Expr)
  | call (f : String) (args : List Expr)

/-- Statement nodes.  An Assign node carries its first target and the
remaining chained targets separately: the host parser guarantees at
least one target, and the source reads node.targets[0] only. -/
inductive Stmt where
  | assign (target : String) (extraTargets : List String) (value : Expr)
  | augAssign (target : String) (op : OpKind) (value : Expr)
  | exprStmt (value : Expr)
  | ifStmt (test : Expr) (body orelse : List Stmt)
  | whileStmt (test : Expr) (body : List Stmt)

/-- The three interpreter classes of the source. -/
inductive Strat where
  | det
  | stoch
  | binding
deriving DecidableEq

/-- The environment: the interpreter's self.env dict. -/
abbrev Env := String → Option Value

def emptyEnv : Env := fun _ => Option.none

/-- Dict insertion self.env[x] = v. -/
def setVar (env : Env) (x : String) (v : Value) : Env :=
  fun y => if y = x then some v else env y

/-- Interpreter state threaded through statement execution: the
environment together with the random-draw counter. -/
structure St where
  env : Env
  ctr : Nat

/-- Numeric view of a value: Python bools are ints (True == 1). -/
def toNum? : Value → Option ℚ
  | .num q => some q
  | .bool b => some (if b then 1 else 0)
  | _ => Option.none

/-- Host numeric operator semantics on rationals.  Div is true
division; FloorDiv floors; Mod matches the floor-division sign
convention (x - y * floor (x / y)); Pow with a non-integral exponent is
a real-valued host result outside the rational model (returned as 0,
never reached by any claim). -/
def numOp : OpKind → ℚ → ℚ → ℚ
  | .add, x, y => x + y
  | .sub, x, y => x - y
  | .mult, x, y => x * y
  | .div, x, y => x / y
  | .floorDiv, x, y => (⌊x / y⌋ : ℚ)
  | .mod, x, y => x - y * (⌊x / y⌋ : ℚ)
  | .pow, x, y =>
      if y.den = 1 then
        if 0 ≤ y.num then x ^ y.num.toNat else (x ^ (-y.num).toNat)⁻¹
      else 0

/-- Host string repetition s * n (negative counts give the empty
string). -/
def strRep (s : String) (n : Int) : String :=
  String.join (List.replicate n.toNat s)

/-- Decimal digit string of a natural number. -/
def natDec (n : Nat) : String := String.mk (Nat.toDigits 10 n)

/-- Digit string of a natural number in a given base, upper- or
lowercase. -/
def natBase (b : Nat) (upper : Bool) (n : Nat) : String :=
  let ds := Nat.toDigits b n
  String.mk (if upper then ds.map Char.toUpper else ds)

def zeroPad (n : Nat) : String := String.mk (List.replicate n '0')

def spacePad (n : Nat) : String := String.mk (List.replicate n ' ')

/-- Left-pad a digit string with zeros to a minimum length. -/
def padZeros (s : String) (n : Nat) : String := zeroPad (n - s.length) ++ s

/-- Strip trailing zero digits. -/
def stripZeros (s : String) : String :=
  String.mk (s.data.reverse.dropWhile (fun c => c = '0')).reverse

/-- Round a/b to the nearest integer, ties to even: the host's float
formatting rounds this way at the decimal digit (on the nearest binary
double; on the exact rational here, per the numeric abstraction). -/
def roundHalfEven (a b : Nat) : Nat :=
  let q := a / b
  let r := a % b
  if 2 * r < b then q
  else if b < 2 * r then q + 1
  else if q % 2 = 0 then q else q + 1

/-- Count of decimal digits. -/
def digitCount (n : Nat) : Nat := (Nat.toDigits 10 n).length

/-- Smallest k with m·10^k ≥ den, for 1 ≤ m < den, by fuel (a fuel of
digitCount den + 1 always suffices). -/
def negExpAux (den : Nat) : Nat → Nat → Nat
  | 0, _ => 1
  | f + 1, m => if den ≤ m * 10 then 1 else 1 + negExpAux den f (m * 10)

/-- Decimal exponent floor(log10(num/den)) of a positive rational: the
position of its leading significant digit. -/
def decExp (num den : Nat) : Int :=
  if den ≤ num then Int.ofNat (digitCount (num / den) - 1)
  else -Int.ofNat (negExpAux den (digitCount den + 1) num)

/-- The value num/den rounded to prec+1 significant digits, with its
decimal exponent (bumped when rounding carries into an extra digit),
for scientific-style formatting of a positive rational. -/
def sciRound (prec : Nat) (num den : Nat) : Nat × Int :=
  let e := decExp num den
  let digits :=
    if e ≤ (prec : Int) then roundHalfEven (num * 10 ^ ((prec : Int) - e).toNat) den
    else roundHalfEven num (den * 10 ^ (e - (prec : Int)).toNat)
  if 10 ^ (prec + 1) ≤ digits then (digits / 10, e + 1) else (digits, e)

/-- The exponent suffix e±XX, at least two exponent digits. -/
def expSuffix (upper : Bool) (e : Int) : String :=
  (if upper then "E" else "e") ++ (if e < 0 then "-" else "+") ++ padZeros (natDec e.natAbs) 2

/-- Fixed-point rendering (%f) of the magnitude num/den with exactly
prec fractional digits; the alternate form keeps the trailing point
when prec is zero. -/
def fixedFmt (alt : Bool) (prec : Nat) (num den : Nat) : String :=
  let k := roundHalfEven (num * 10 ^ prec) den
  let ip := k / 10 ^ prec
  let fp := k % 10 ^ prec
  if prec = 0 then natDec ip ++ (if alt then "." else "")
  else natDec ip ++ "." ++ padZeros (natDec fp) prec

/-- Scientific rendering (%e) of the magnitude num/den with prec
fractional mantissa digits. -/
def sciFmt (alt : Bool) (upper : Bool) (prec : Nat) (num den : Nat) : String :=
  let p := if num = 0 then ((0 : Nat), (0 : Int)) else sciRound prec num den
  let lead := p.1 / 10 ^ prec
  let fp := p.1 % 10 ^ prec
  let mant :=
    if prec = 0 then natDec lead ++ (if alt then "." else "")
    else natDec lead ++ "." ++ padZeros (natDec fp) prec
  mant ++ expSuffix upper p.2

/-- General rendering (%g) of the magnitude num/den: round to prec
significant digits (a zero precision counts as one), then use
scientific notation when the exponent is below -4 or at least prec and
fixed-point placement of the same rounded digits otherwise; trailing
fractional zeros and a bare point are stripped unless the alternate
flag is set. -/
def gFmt (alt upper : Bool) (prec0 : Nat) (num den : Nat) : String :=
  let p := max prec0 1
  let de := if num = 0 then ((0 : Nat), (0 : Int)) else sciRound (p - 1) num den
  let digits := de.1
  let e := de.2
  if e < -4 ∨ (p : Int) ≤ e then
    let lead := digits / 10 ^ (p - 1)
    let fp := digits % 10 ^ (p - 1)
    let full := if p - 1 = 0 then "" else padZeros (natDec fp) (p - 1)
    let fs := if alt then full else stripZeros full
    (if fs = "" then natDec lead ++ (if alt then "." else "")
     else natDec lead ++ "." ++ fs) ++ expSuffix upper e
  else
    let f := ((p : Int) - 1 - e).toNat
    let ip := digits / 10 ^ f
    let fp := digits % 10 ^ f
    let full := if f = 0 then "" else padZeros (natDec fp) f
    let fs := if alt then full else stripZeros full
    if fs = "" then natDec ip ++ (if alt then "." else "")
    else natDec ip ++ "." ++ fs

/-- Multiplicity of p in n together with the cofactor, by fuel (n
itself always suffices). -/
def stripFactor (p : Nat) : Nat → Nat → Nat × Nat
  | 0, n => (0, n)
  | f + 1, n =>
    if n % p = 0 ∧ 0 < n then
      let cm := stripFactor p f (n / p)
      (cm.1 + 1, cm.2)
    else (0, n)

/-- Truncation toward zero, the host int() conversion of a real. -/
def ratTrunc (q : ℚ) : Int :=
  if q.num < 0 then -Int.ofNat (q.num.natAbs / q.den) else Int.ofNat (q.num.natAbs / q.den)

/-- Host str() of a non-integral number, following repr placement
(scientific notation when the exponent is at least 16 or below -4):
the exact decimal expansion when the denominator divides a power of
ten — every host float does, being a dyadic rational — and a
17-significant-digit fallback for rationals outside the host float
image. -/
def floatRepr (q : ℚ) : String :=
  let sgn := if q.num < 0 then "-" else ""
  let n := q.num.natAbs
  let d := q.den
  let s2 := stripFactor 2 d d
  let s5 := stripFactor 5 s2.2 s2.2
  let e := decExp n d
  if s5.2 = 1 then
    let m := max s2.1 s5.1
    let scaled := n * 10 ^ m / d
    if 16 ≤ e ∨ e ≤ -5 then
      let sig := stripZeros (natDec scaled)
      let mant := if sig.length ≤ 1 then sig else sig.take 1 ++ "." ++ sig.drop 1
      sgn ++ mant ++ expSuffix false e
    else
      let ip := scaled / 10 ^ m
      let fp := scaled % 10 ^ m
      let fs := stripZeros (padZeros (natDec fp) m)
      sgn ++ natDec ip ++ "." ++ (if fs = "" then "0" else fs)
  else
    sgn ++ gFmt false false 17 n d

/-- Host str() over the value domain. -/
def pyStr : Value → String
  | .num q =>
      if q.den = 1 then (if q.num < 0 then "-" else "") ++ natDec q.num.natAbs
      else floatRepr q
  | .str s => s
  | .bool b => if b then "True" else "False"
  | .none => "None"

/-- A backslash hex/unicode escape of the given width. -/
def hexEsc (pre : String) (w : Nat) (n : Nat) : String :=
  "\\" ++ pre ++ padZeros (natBase 16 false n) w

/-- Escape one character as host repr/ascii do: backslash and the
active quote are escaped, newline/return/tab specially, other control
characters (and under ascii every non-ASCII character) as hex escapes.
Unicode printability beyond the Latin-1 range is approximated:
characters above U+00AD count as printable. -/
def escChar (forAscii : Bool) (qc : Char) (c : Char) : String :=
  let n := c.toNat
  if c = '\\' then "\\\\"
  else if c = qc then "\\" ++ String.singleton qc
  else if c = '\n' then "\\n"
  else if c = '\r' then "\\r"
  else if c = '\t' then "\\t"
  else if n < 0x20 ∨ (0x7f ≤ n ∧ n ≤ 0xa0) ∨ n = 0xad then hexEsc "x" 2 n
  else if forAscii ∧ 0x80 ≤ n then
    if n ≤ 0xff then hexEsc "x" 2 n
    else if n ≤ 0xffff then hexEsc "u" 4 n
    else hexEsc "U" 8 n
  else String.singleton c

/-- Host repr of a string: quoted with single quotes, or double quotes
when the content holds a single quote but no double quote. -/
def strReprQ (forAscii : Bool) (s : String) : String :=
  let qc := if s.data.any (fun c => c = '\'') ∧ ¬ s.data.any (fun c => c = '"') then '"'
            else '\''
  String.singleton qc ++ String.join (s.data.map (escChar forAscii qc)) ++ String.singleton qc

/-- Host repr() (and, with forAscii, ascii()) over the value domain. -/
def pyRepr (forAscii : Bool) : Value → String
  | .str s => strReprQ forAscii s
  | v => pyStr v

/-- View a value as the host integer for %d/%i/%u: real numbers
truncate toward zero, booleans are 0/1; strings and None are the host
TypeError. -/
def intForD : Value → Option Int
  | .num q => some (ratTrunc q)
  | .bool b => some (if b then 1 else 0)
  | _ => Option.none

/-- View a value as an exact host integer for %o/%x/%X/%c: only
whole numbers and booleans qualify (the model's whole rationals stand
for host ints). -/
def intExact : Value → Option Int
  | .num q => if q.den = 1 then some q.num else Option.none
  | .bool b => some (if b then 1 else 0)
  | _ => Option.none

/-- The host error kinds a %-format raises: TypeError, or
ValueError/OverflowError (both outside the spec's taxonomy). -/
inductive FmtErr where
  | typeErr
  | valueErr
deriving DecidableEq

/-- Conversion flags minus, plus, space, alternate and zero. -/
structure FmtFlags where
  minus : Bool
  plus : Bool
  space : Bool
  alt : Bool
  zero : Bool
deriving DecidableEq

def noFlags : FmtFlags := ⟨false, false, false, false, false⟩

def parseFlags : List Char → FmtFlags → FmtFlags × List Char
  | '-' :: cs, fl => parseFlags cs ⟨true, fl.plus, fl.space, fl.alt, fl.zero⟩
  | '+' :: cs, fl => parseFlags cs ⟨fl.minus, true, fl.space, fl.alt, fl.zero⟩
  | ' ' :: cs, fl => parseFlags cs ⟨fl.minus, fl.plus, true, fl.alt, fl.zero⟩
  | '#' :: cs, fl => parseFlags cs ⟨fl.minus, fl.plus, fl.space, true, fl.zero⟩
  | '0' :: cs, fl => parseFlags cs ⟨fl.minus, fl.plus, fl.space, fl.alt, true⟩
  | cs, fl => (fl, cs)

def parseNatNum : List Char → Nat → Nat × List Char
  | c :: cs, acc =>
      if c.isDigit then parseNatNum cs (acc * 10 + (c.toNat - 48)) else (acc, c :: cs)
  | [], acc => (acc, [])

/-- The conversion character after an optional single length modifier;
an exhausted format is the host incomplete-format ValueError. -/
def requireConv (fl : FmtFlags) (width : Nat) (prec : Option Nat) :
    List Char → Except FmtErr (FmtFlags × Nat × Option Nat × Char × List Char)
  | [] => .error .valueErr
  | c :: cs => .ok (fl, width, prec, c, cs)

def skipLength : List Char → List Char
  | 'h' :: cs => cs
  | 'l' :: cs => cs
  | 'L' :: cs => cs
  | cs => cs

/-- Parse one conversion specifier after the leading percent (the bare
percent-percent escape is the caller's): a mapping key is the host
TypeError since no Value is a mapping, a star width or precision
consumes the single argument and leaves none for the conversion (host
TypeError either way), and running out of characters is the host
incomplete-format ValueError. -/
def parseSpec (cs : List Char) :
    Except FmtErr (FmtFlags × Nat × Option Nat × Char × List Char) :=
  match cs with
  | '(' :: _ => .error .typeErr
  | _ =>
    let fcs := parseFlags cs noFlags
    match fcs.2 with
    | '*' :: _ => .error .typeErr
    | cs1 =>
      let wcs := parseNatNum cs1 0
      match wcs.2 with
      | '.' :: '*' :: _ => .error .typeErr
      | '.' :: cs2 =>
          let pcs := parseNatNum cs2 0
          requireConv fcs.1 wcs.1 (some pcs.1) (skipLength pcs.2)
      | cs2 => requireConv fcs.1 wcs.1 Option.none (skipLength cs2)

/-- Pad a numeric rendering to the field width: the zero flag (unless
left-justifying) inserts zeros between the sign/prefix and the
digits. -/
def padNumeric (minus zero : Bool) (width : Nat) (sgn pfx body : String) : String :=
  let core := sgn ++ pfx ++ body
  if width ≤ core.length then core
  else if minus then core ++ spacePad (width - core.length)
  else if zero then sgn ++ pfx ++ zeroPad (width - core.length) ++ body
  else spacePad (width - core.length) ++ core

/-- Pad a textual rendering to the field width with spaces (the zero
flag does not apply to the s/r/a/c conversions). -/
def padText (minus : Bool) (width : Nat) (s : String) : String :=
  if width ≤ s.length then s
  else if minus then s ++ spacePad (width - s.length)
  else spacePad (width - s.length) ++ s

/-- An integer conversion: the optional precision zero-pads the
digits, the sign precedes any alternate-form prefix. -/
def fmtIntCommon (fl : FmtFlags) (width : Nat) (prec : Option Nat) (base : Nat)
    (upper : Bool) (pfx : String) (n : Int) : String :=
  let body := padZeros (natBase base upper n.natAbs) (prec.getD 0)
  let sgn := if n < 0 then "-" else if fl.plus then "+" else if fl.space then " " else ""
  padNumeric fl.minus fl.zero width sgn pfx body

/-- A real conversion (default precision six): the sign comes from the
value itself, so a negative value rounding to zero keeps its minus. -/
def fmtFloatCommon (fl : FmtFlags) (width : Nat) (prec : Option Nat) (conv : Char)
    (q : ℚ) : String :=
  let sgn := if q.num < 0 then "-" else if fl.plus then "+" else if fl.space then " " else ""
  let n := q.num.natAbs
  let d := q.den
  let body :=
    if conv = 'f' ∨ conv = 'F' then fixedFmt fl.alt (prec.getD 6) n d
    else if conv = 'e' ∨ conv = 'E' then sciFmt fl.alt (conv = 'E') (prec.getD 6) n d
    else gFmt fl.alt (conv = 'G') (prec.getD 6) n d
  padNumeric fl.minus fl.zero width sgn "" body

/-- Apply one parsed conversion to the single argument, as the host
does: s/r/a stringify (precision truncates), d/i/u format the
truncated integer, o/x/X require an exact integer, e/E/f/F/g/G a real
number, c a character code (OverflowError outside the Unicode range,
modelled up to lone surrogates, which the model's strings cannot hold)
or a one-character string; any other conversion character — including
a percent reached with modifiers — is the host unsupported-format
ValueError. -/
def applyConv (fl : FmtFlags) (width : Nat) (prec : Option Nat) (conv : Char)
    (v : Value) : Except FmtErr String :=
  if conv = 's' ∨ conv = 'r' ∨ conv = 'a' then
    let t := if conv = 's' then pyStr v else pyRepr (conv = 'a') v
    let t := match prec with | some p => t.take p | Option.none => t
    .ok (padText fl.minus width t)
  else if conv = 'd' ∨ conv = 'i' ∨ conv = 'u' then
    match intForD v with
    | some n => .ok (fmtIntCommon fl width prec 10 false "" n)
    | Option.none => .error .typeErr
  else if conv = 'o' then
    match intExact v with
    | some n => .ok (fmtIntCommon fl width prec 8 false (if fl.alt then "0o" else "") n)
    | Option.none => .error .typeErr
  else if conv = 'x' then
    match intExact v with
    | some n => .ok (fmtIntCommon fl width prec 16 false (if fl.alt then "0x" else "") n)
    | Option.none => .error .typeErr
  else if conv = 'X' then
    match intExact v with
    | some n => .ok (fmtIntCommon fl width prec 16 true (if fl.alt then "0X" else "") n)
    | Option.none => .error .typeErr
  else if conv = 'e' ∨ conv = 'E' ∨ conv = 'f' ∨ conv = 'F' ∨ conv = 'g' ∨ conv = 'G' then
    match toNum? v with
    | some q => .ok (fmtFloatCommon fl width prec conv q)
    | Option.none => .error .typeErr
  else if conv = 'c' then
    match v with
    | .str s => if s.length = 1 then .ok (padText fl.minus width s) else .error .typeErr
    | _ =>
      match intExact v with
      | some n =>
          if 0 ≤ n ∧ n < 1114112 then
            .ok (padText fl.minus width (String.singleton (Char.ofNat n.toNat)))
          else .error .valueErr
      | Option.none => .error .typeErr
  else .error .valueErr

/-- Scan the format string, by fuel (one more than the character count
always suffices; the fuel-zero branch is unreachable from strMod):
literal characters are copied, a bare percent-percent is a literal
percent consuming no argument, and every other specifier consumes the
single argument — a second consuming specifier is the host
not-enough-arguments TypeError, raised before the conversion character
is examined — while an argument still unconsumed at the end is the
host not-all-arguments-converted TypeError. -/
def fmtScan (v : Value) : Nat → List Char → Bool → String → Except FmtErr String
  | 0, _, _, _ => .error .valueErr
  | _ + 1, [], consumed, acc => if consumed then .ok acc else .error .typeErr
  | fuel + 1, '%' :: '%' :: cs, consumed, acc => fmtScan v fuel cs consumed (acc ++ "%")
  | fuel + 1, '%' :: cs, consumed, acc =>
    match parseSpec cs with
    | .error e => .error e
    | .ok spec =>
      if consumed then .error .typeErr
      else
        match applyConv spec.1 spec.2.1 spec.2.2.1 spec.2.2.2.1 v with
        | .ok out => fmtScan v fuel spec.2.2.2.2 true (acc ++ out)
        | .error e => .error e
  | fuel + 1, c :: cs, consumed, acc => fmtScan v fuel cs consumed (acc.push c)

/-- Host %-formatting of a string by a value: operator.mod with a
String left operand.  Host TypeErrors surface as typeMismatch and
ValueError/OverflowError as the out-of-taxonomy fault. -/
def strMod (s : String) (v : Value) : Except Err Value :=
  match fmtScan v (s.length + 1) s.data false "" with
  | .ok t => .ok (.str t)
  | .error .typeErr => .error .typeMismatch
  | .error .valueErr => .error .fault

/-- Host binary operator application (the operator.add etc. the source
resolves operator kinds to).  Numeric operands use numOp; the host
string operations Add(str, str) = concatenation, Mult of a string by a
whole number = repetition, and Mod with a string left operand =
printf-style formatting follow the host; every other application
involving a non-numeric operand raises TypeError, modelled as
typeMismatch. -/
def applyOp (op : OpKind) (a b : Value) : Except Err Value :=
  match toNum? a, toNum? b with
  | some x, some y => .ok (.num (numOp op x y))
  | _, _ =>
    match op, a, b with
    | .add, .str s, .str t => .ok (.str (s ++ t))
    | .mult, .str s, v =>
        match toNum? v with
        | some q => if q.den = 1 then .ok (.str (strRep s q.num)) else .error .typeMismatch
        | Option.none => .error .typeMismatch
    | .mult, v, .str s =>
        match toNum? v with
        | some q => if q.den = 1 then .ok (.str (strRep s q.num)) else .error .typeMismatch
        | Option.none => .error .typeMismatch
    | .mod, .str s, v => strMod s v
    | _, _, _ => .error .typeMismatch

/-- Host numeric comparison. -/
def numCmpB : CmpKind → ℚ → ℚ → Bool
  | .lt, x, y => decide (x < y)
  | .le, x, y => decide (x ≤ y)
  | .eq, x, y => decide (x = y)
  | .ne, x, y => decide (x ≠ y)
  | .ge, x, y => decide (y ≤ x)
  | .gt, x, y => decide (y < x)

/-- Host lexicographic string comparison. -/
def strCmpB : CmpKind → String → String → Bool
  | .lt, s, t => decide (s < t)
  | .le, s, t => decide (s < t) || decide (s = t)
  | .eq, s, t => decide (s = t)
  | .ne, s, t => decide (s ≠ t)
  | .ge, s, t => decide (t < s) || decide (s = t)
  | .gt, s, t => decide (t < s)

/-- Host equality between values of possibly different runtime types:
numeric values compare numerically (True == 1), strings by content,
None equals only None, and values of different kinds are unequal. -/
def pyEqB (a b : Value) : Bool :=
  match toNum? a, toNum? b with
  | some x, some y => decide (x = y)
  | _, _ =>
    match a, b with
    | .str s, .str t => decide (s = t)
    | .none, .none => true
    | _, _ => false

/-- Host comparison-operator application: numeric pairs compare
numerically, string pairs lexicographically; on mixed kinds equality
holds never and inequality always, while the order comparisons raise
TypeError. -/
def cmpBool (k : CmpKind) (a b : Value) : Except Err Bool :=
  match toNum? a, toNum? b with
  | some x, some y => .ok (numCmpB k x y)
  | _, _ =>
    match a, b with
    | .str s, .str t => .ok (strCmpB k s t)
    | _, _ =>
      match k with
      | .eq => .ok (pyEqB a b)
      | .ne => .ok (!pyEqB a b)
      | _ => .error .typeMismatch

/-- The comparison loop of visit_Compare: walk consecutive value pairs
zip(values[:-1], values[1:]) against ops[i], returning False at the
first failing pair and True when the pairs are exhausted; running out
of ops with pairs remaining is the host IndexError. -/
def chainCompare : List CmpKind → Value → List Value → Except Err Bool
  | _, _, [] => .ok true
  | [], _, _ :: _ => .error .fault
  | k :: ks, l, r :: rs => do
      let b ← cmpBool k l r
      if b then chainCompare ks r rs else .ok false

/-- Operator-kind resolution visit(node.op): the stochastic class
overrides visit_Mod to draw randrange(2) and substitute true division
on a draw of 1; every other case returns the operator unchanged and
consumes no randomness. -/
def visitOp (s : Strat) (rand : Nat → Nat) (op : OpKind) (c : Nat) : OpKind × Nat :=
  match s, op with
  | .stoch, .mod => (if rand c % 2 = 0 then OpKind.mod else OpKind.div, c + 1)
  | _, _ => (op, c)

/-- Name resolution visit_Name: the stochastic class draws randrange(2)
for a bound name and returns the bound value (draw 0) or the name
itself as a string (draw 1); an unbound name raises NameError before
any draw.  The other classes return the bound value. -/
def visitName (s : Strat) (rand : Nat → Nat) (env : Env) (x : String) (c : Nat) :
    Except Err (Value × Nat) :=
  match s with
  | .stoch =>
    match env x with
    | some v => if rand c % 2 = 0 then .ok (v, c + 1) else .ok (.str x, c + 1)
    | Option.none => .error (.undefinedVariable x)
  | _ =>
    match env x with
    | some v => .ok (v, c)
    | Option.none => .error (.undefinedVariable x)

/-- BindingInterpreter pattern 1: (a*b)+c with numeric leaves. -/
def pat1 : OpKind → Expr → Expr → Option (ℚ × ℚ × ℚ)
  | .add, .binOp .mult (.num a) (.num b), .num c => some (a, b, c)
  | _, _, _ => Option.none

/-- BindingInterpreter pattern 2: a+(b*c) with numeric leaves. -/
def pat2 : OpKind → Expr → Expr → Option (ℚ × ℚ × ℚ)
  | .add, .num a, .binOp .mult (.num b) (.num c) => some (a, b, c)
  | _, _, _ => Option.none

/-- BindingInterpreter pattern 3: (a*b)-c with numeric leaves. -/
def pat3 : OpKind → Expr → Expr → Option (ℚ × ℚ × ℚ)
  | .sub, .binOp .mult (.num a) (.num b), .num c => some (a, b, c)
  | _, _, _ => Option.none

/-- BindingInterpreter pattern 4: a-(b*c) with numeric leaves. -/
def pat4 : OpKind → Expr → Expr → Option (ℚ × ℚ × ℚ)
  | .sub, .num a, .binOp .mult (.num b) (.num c) => some (a, b, c)
  | _, _, _ => Option.none

/-- BindingInterpreter pattern 5: (a/b)+c with numeric leaves. -/
def pat5 : OpKind → Expr → Expr → Option (ℚ × ℚ × ℚ)
  | .add, .binOp .div (.num a) (.num b), .num c => some (a, b, c)
  | _, _, _ => Option.none

/-- BindingInterpreter pattern 6: a+(b/c) with numeric leaves. -/
def pat6 : OpKind → Expr → Expr → Option (ℚ × ℚ × ℚ)
  | .add, .num a, .binOp .div (.num b) (.num c) => some (a, b, c)
  | _, _, _ => Option.none

/-- BindingInterpreter pattern 7: (a+(b/c))+d with numeric leaves. -/
def pat7 : OpKind → Expr → Expr → Option (ℚ × ℚ × ℚ × ℚ)
  | .add, .binOp .add (.num a) (.binOp .div (.num b) (.num c)), .num d => some (a, b, c, d)
  | _, _, _ => Option.none

/-- Left-to-right evaluation of an argument or comparator list by a
given element evaluator, threading the draw counter. -/
def evalListWith (f : Expr → Nat → Except Err (Value × Nat)) :
    List Expr → Nat → Except Err (List Value × Nat)
  | [], c => .ok ([], c)
  | e :: es, c => do
      let (v, c1) ← f e c
      let (vs, c2) ← evalListWith f es c1
      .ok (v :: vs, c2)

/-- The generic visit_BinOp rule shared by the deterministic and
stochastic classes and used as the binding class's fallback: evaluate
the left operand, then the right (both always, no short-circuit), then
resolve the operator via visitOp, then apply it.  The recursive
evaluation of the operand subtrees is passed in as `recur`. -/
def genericBinOp (s : Strat) (rand : Nat → Nat)
    (recur : Expr → Nat → Except Err (Value × Nat))
    (op : OpKind) (l r : Expr) (c : Nat) : Except Err (Value × Nat) := do
  let (x, c1) ← recur l c
  let (y, c2) ← recur r c1
  let (rop, c3) := visitOp s rand op c2
  let v ← applyOp rop x y
  .ok (v, c3)

/-- BindingInterpreter.visit_BinOp: check the seven shape patterns in
source order; the first match fires and computes the rewritten result
(visiting only numeric-literal children, so no draws and no recursion);
pattern 7 draws randrange(3) to pick among its three rewrites; when no
pattern matches, fall back to the generic rule. -/
def bindingBinOp (rand : Nat → Nat)
    (recur : Expr → Nat → Except Err (Value × Nat))
    (op : OpKind) (l r : Expr) (c : Nat) : Except Err (Value × Nat) :=
  match pat1 op l r with
  | some (a, b, k) => .ok (.num (a * (b + k)), c)
  | Option.none =>
  match pat2 op l r with
  | some (a, b, k) => .ok (.num ((a + b) * k), c)
  | Option.none =>
  match pat3 op l r with
  | some (a, b, k) => .ok (.num (a * (b - k)), c)
  | Option.none =>
  match pat4 op l r with
  | some (a, b, k) => .ok (.num ((a - b) * k), c)
  | Option.none =>
  match pat5 op l r with
  | some (a, b, k) => .ok (.num (a / (k + b)), c)
  | Option.none =>
  match pat6 op l r with
  | some (a, b, k) => .ok (.num ((a + b) / k), c)
  | Option.none =>
  match pat7 op l r with
  | some (a, b, k, d) =>
      let j := rand c % 3
      if j = 0 then .ok (.num ((a + b) / k + d), c + 1)
      else if j = 1 then .ok (.num ((a + b) / (k + d)), c + 1)
      else .ok (.num (a + b / (k + d)), c + 1)
  | Option.none => genericBinOp .binding rand recur op l r c

/-- Expression evaluation under a strategy: the visit_* dispatch of the
source for expression nodes.  Returns the value together with the
advanced draw counter; the environment is never mutated by an
expression.  Recursion depth is bounded by explicit fuel; exhausting it
is the StackExhausted condition of the host call stack.  visit_Compare
resolves its ops first (pure under every strategy), then evaluates the
left operand and every comparator eagerly before running the comparison
loop.  visit_Call resolves against the builtins table ({print}) before
the environment; an environment-resolved value is never callable in
this language, so invoking it is the host TypeError. -/
def evalExpr (s : Strat) (rand : Nat → Nat) (env : Env) :
    Nat → Expr → Nat → Except Err (Value × Nat)
  | 0, _, _ => .error .stackExhausted
  | _ + 1, .num q, c => .ok (.num q, c)
  | _ + 1, .str t, c => .ok (.str t, c)
  | _ + 1, .name x, c => visitName s rand env x c
  | fuel + 1, .binOp op l r, c =>
      match s with
      | .det => genericBinOp .det rand (evalExpr s rand env fuel) op l r c
      | .stoch => genericBinOp .stoch rand (evalExpr s rand env fuel) op l r c
      | .binding => bindingBinOp rand (evalExpr s rand env fuel) op l r c
  | fuel + 1, .compare l ops comps, c => do
      let (v0, c1) ← evalExpr s rand env fuel l c
      let (vs, c2) ← evalListWith (evalExpr s rand env fuel) comps c1
      let b ← chainCompare ops v0 vs
      .ok (.bool b, c2)
  | fuel + 1, .call f args, c =>
      if f = "print" then do
        let (_, c1) ← evalListWith (evalExpr s rand env fuel) args c
        .ok (.none, c1)
      else
        match env f with
        | some _ => do
            let (_, _) ← evalListWith (evalExpr s rand env fuel) args c
            .error .typeMismatch
        | Option.none => .error (.undefinedFunction f)

/-- Host truthiness used by If and While tests: a number is truthy iff
nonzero, a string iff nonempty, a boolean is itself, None is falsy. -/
def truthy : Value → Bool
  | .num q => decide (q ≠ 0)
  | .str s => decide (s ≠ "")
  | .bool b => b
  | .none => false

/-- Statement-sequence execution under a strategy, one unit of fuel
per statement processed (fuel exhaustion is the StackExhausted
condition).  visit_Assign binds only the first target; visit_AugAssign
resolves the operator, reads the target through the Name dispatch,
evaluates the value, applies the operator and stores the result; the
stochastic class's visit_If draws randrange(2) before evaluating the
test and executes the branches swapped on a draw of 1; visit_While
re-evaluates its test before every iteration (modelled by re-queueing
the loop node after its body). -/
def execStmts (s : Strat) (rand : Nat → Nat) : Nat → List Stmt → St → Except Err St
  | _, [], st => .ok st
  | 0, _ :: _, _ => .error .stackExhausted
  | fuel + 1, .assign t _ e :: rest, st => do
      let (v, c) ← evalExpr s rand st.env fuel e st.ctr
      execStmts s rand fuel rest ⟨setVar st.env t v, c⟩
  | fuel + 1, .augAssign t op e :: rest, st =>
      let (rop, c0) := visitOp s rand op st.ctr
      do
        let (cur, c1) ← visitName s rand st.env t c0
        let (v, c2) ← evalExpr s rand st.env fuel e c1
        let w ← applyOp rop cur v
        execStmts s rand fuel rest ⟨setVar st.env t w, c2⟩
  | fuel + 1, .exprStmt e :: rest, st => do
      let (_, c) ← evalExpr s rand st.env fuel e st.ctr
      execStmts s rand fuel rest ⟨st.env, c⟩
  | fuel + 1, .ifStmt t body orelse :: rest, st =>
      match s with
      | .stoch =>
        let k := rand st.ctr % 2
        do
          let (tv, c1) ← evalExpr s rand st.env fuel t (st.ctr + 1)
          let taken := if k = 0 then (if truthy tv then body else orelse)
                       else (if truthy tv then orelse else body)
          let st1 ← execStmts s rand fuel taken ⟨st.env, c1⟩
          execStmts s rand fuel rest st1
      | .det => do
          let (tv, c1) ← evalExpr s rand st.env fuel t st.ctr
          let st1 ← execStmts s rand fuel (if truthy tv then body else orelse) ⟨st.env, c1⟩
          execStmts s rand fuel rest st1
      | .binding => do
          let (tv, c1) ← evalExpr s rand st.env fuel t st.ctr
          let st1 ← execStmts s rand fuel (if truthy tv then body else orelse) ⟨st.env, c1⟩
          execStmts s rand fuel rest st1
  | fuel + 1, .whileStmt t body :: rest, st => do
      let (tv, c1) ← evalExpr s rand st.env fuel t st.ctr
      if truthy tv then do
        let st1 ← execStmts s rand fuel body ⟨st.env, c1⟩
        execStmts s rand fuel (Stmt.whileStmt t body :: rest) st1
      else execStmts s rand fuel rest ⟨st.env, c1⟩

/-- The initial state of a fresh interpreter instance: empty
environment, no draws consumed. -/
def initSt : St := ⟨emptyEnv, 0⟩

/-- PyliteInterpreter.run: build a fresh instance, visit the parsed
module (executing its statements in order) and return the visit's
result, which is the host None; errors propagate to the caller. -/
def runDet (fuel : Nat) (prog : List Stmt) : Except Err Value :=
  (execStmts .det (fun _ => 0) fuel prog initSt).map (fun _ => Value.none)

/-- StochasticPyliteInterpreter.run, with the randomness oracle made
explicit. -/
def runStoch (rand : Nat → Nat) (fuel : Nat) (prog : List Stmt) : Except Err Value :=
  (execStmts .stoch rand fuel prog initSt).map (fun _ => Value.none)

/-- BindingInterpreter.run, with the randomness oracle made
explicit. -/
def runBinding (rand : Nat → Nat) (fuel : Nat) (prog : List Stmt) : Except Err Value :=
  (execStmts .binding rand fuel prog initSt).map (fun _ => Value.none)

/-- Read a variable out of an execution result (None when the
execution failed or the variable is unbound): a convenience for
stating environment facts about concrete programs. -/
def lookupResult (r : Except Err St) (x : String) : Option Value :=
  match r with
  | .ok st => st.env x
  | .error _ => Option.none

/-- A comparison chain that succeeds with `true` passed every
consecutive pair: the pairs are exactly zip(values[:-1], values[1:])
as formed by the source. -/
theorem chainCompare_true_all : ∀ (rs : List Value) (ks : List CmpKind) (l : Value),
    chainCompare ks l rs = .ok true →
    ∀ k x y, (k, x, y) ∈ ks.zip ((l :: rs).zip rs) → cmpBool k x y = .ok true := by
  intro rs
  induction rs with
  | nil =>
    intro ks l _ k x y hm
    simp at hm
  | cons r rs ih =>
    intro ks l h k x y hm
    cases ks with
    | nil => simp at hm
    | cons k0 ks =>
      rw [List.zip_cons_cons, List.zip_cons_cons] at hm
      rcases List.mem_cons.mp hm with hm | hm
      · cases hb : cmpBool k0 l r with
        | error e => rw [chainCompare, hb] at h; exact absurd h (by simp [Bind.bind, Except.bind])
        | ok b =>
          cases b with
          | false =>
            rw [chainCompare, hb] at h
            exact absurd h (by simp [Bind.bind, Except.bind])
          | true =>
            simp only [Prod.mk.injEq] at hm
            obtain ⟨rfl, rfl, rfl⟩ := hm
            exact hb
      · cases hb : cmpBool k0 l r with
        | error e => rw [chainCompare, hb] at h; exact absurd h (by simp [Bind.bind, Except.bind])
        | ok b =>
          cases b with
          | false =>
            rw [chainCompare, hb] at h
            exact absurd h (by simp [Bind.bind, Except.bind])
          | true =>
            rw [chainCompare, hb] at h
            simp only [Bind.bind, Except.bind] at h
            exact ih ks r (by simpa using h) k x y hm

/-- Conversely, when the lengths agree and every consecutive pair
compares true, the comparison loop returns true. -/
theorem chainCompare_all_true : ∀ (rs : List Value) (ks : List CmpKind) (l : Value),
    ks.length = rs.length →
    (∀ k x y, (k, x, y) ∈ ks.zip ((l :: rs).zip rs) → cmpBool k x y = .ok true) →
    chainCompare ks l rs = .ok true := by
  intro rs
  induction rs with
  | nil =>
    intro ks l hlen _
    rw [List.length_eq_zero.mp (hlen.trans rfl)]
    rfl
  | cons r rs ih =>
    intro ks l hlen hall
    cases ks with
    | nil => simp at hlen
    | cons k0 ks =>
      have hb : cmpBool k0 l r = .ok true := by
        refine hall k0 l r ?_
        rw [List.zip_cons_cons, List.zip_cons_cons]
        exact List.mem_cons_self _ _
      rw [chainCompare, hb]
      simp only [Bind.bind, Except.bind, if_true]
      refine ih ks r (by simpa using hlen) ?_
      intro k x y hm
      refine hall k x y ?_
      rw [List.zip_cons_cons, List.zip_cons_cons]
      exact List.mem_cons_of_mem _ hm

/-- C1: under the deterministic strategy, evaluating a Compare node
first evaluates the left expression and then every comparator
expression eagerly, in left-to-right order, before any comparison is
checked; it then applies each CompareKind to consecutive value pairs in
order, returns false at the first pair that compares false (performing
no further comparisons), and returns true only if every consecutive
pair compares true.  In particular Compare(1, [Lt, Lt], [2, 3])
evaluates to true and Compare(1, [Lt, Lt], [3, 2]) evaluates to false;
the third concrete fact shows the eager order: a failing comparator
evaluation aborts the Compare even though the first pair already
compares false. -/
theorem compare_eager_then_short_circuit :
    (∀ (rand : Nat → Nat) (env : Env) (fuel : Nat) (l : Expr) (ops : List CmpKind)
        (comps : List Expr) (c : Nat),
      evalExpr .det rand env (fuel + 1) (.compare l ops comps) c = do
        let (v0, c1) ← evalExpr .det rand env fuel l c
        let (vs, c2) ← evalListWith (evalExpr .det rand env fuel) comps c1
        let b ← chainCompare ops v0 vs
        .ok (.bool b, c2))
    ∧ (∀ (f : Expr → Nat → Except Err (Value × Nat)) (e : Expr) (es : List Expr) (c : Nat),
      evalListWith f (e :: es) c = do
        let (v, c1) ← f e c
        let (vs, c2) ← evalListWith f es c1
        .ok (v :: vs, c2))
    ∧ (∀ (k : CmpKind) (ks : List CmpKind) (l r : Value) (rs : List Value),
        cmpBool k l r = .ok false → chainCompare (k :: ks) l (r :: rs) = .ok false)
    ∧ (∀ (k : CmpKind) (ks : List CmpKind) (l r : Value) (rs : List Value),
        cmpBool k l r = .ok true → chainCompare (k :: ks) l (r :: rs) = chainCompare ks r rs)
    ∧ (∀ (ks : List CmpKind) (l : Value) (rs : List Value),
        chainCompare ks l rs = .ok true →
        ∀ k x y, (k, x, y) ∈ ks.zip ((l :: rs).zip rs) → cmpBool k x y = .ok true)
    ∧ (∀ (ks : List CmpKind) (l : Value) (rs : List Value),
        ks.length = rs.length →
        (∀ k x y, (k, x, y) ∈ ks.zip ((l :: rs).zip rs) → cmpBool k x y = .ok true) →
        chainCompare ks l rs = .ok true)
    ∧ evalExpr .det (fun _ => 0) emptyEnv 9 (.compare (.num 1) [.lt, .lt] [.num 2, .num 3]) 0
        = .ok (.bool true, 0)
    ∧ evalExpr .det (fun _ => 0) emptyEnv 9 (.compare (.num 1) [.lt, .lt] [.num 3, .num 2]) 0
        = .ok (.bool false, 0)
    ∧ evalExpr .det (fun _ => 0) emptyEnv 9 (.compare (.num 5) [.lt, .lt] [.num 3, .name "z"]) 0
        = .error (.undefinedVariable "z") := by
  refine ⟨fun _ _ _ _ _ _ _ => rfl, fun _ _ _ _ => rfl, ?_, ?_,
    fun ks l rs => chainCompare_true_all rs ks l,
    fun ks l rs => chainCompare_all_true rs ks l, by decide, by decide, by decide⟩
  · intro k ks l r rs hb
    rw [chainCompare, hb]
    simp [Bind.bind, Except.bind]
  · intro k ks l r rs hb
    rw [chainCompare, hb]
    simp [Bind.bind, Except.bind]

/-- The C1 theorem applied at concrete inputs: the chain returns false
at the first failing pair even though the later pair (2 against a
string) would raise a TypeError if it were compared. -/
theorem compare_eager_then_short_circuit_wit :
    chainCompare [CmpKind.lt, CmpKind.gt] (Value.num 3) [Value.num 2, Value.str "q"]
      = .ok false := by
  exact compare_eager_then_short_circuit.2.2.1 .lt [.gt] (.num 3) (.num 2) [.str "q"] (by decide)

/-- C2: under the pattern-rewriting strategy, BinaryOp patterns are
checked in the fixed documented order with the first matching pattern
firing, and a BinaryOp matching pattern 1 — an Add whose left child is
a Mult of two numeric literals and whose right child is a numeric
literal — is always rewritten to a*(b+c): BinaryOp(Add,
BinaryOp(Mult, 2, 3), 4) always returns 14 (for every randomness
oracle), never the generic 10; when no pattern matches, evaluation
falls back to the generic BinaryOp rule, which on plain numeric-leaf
nodes coincides with the deterministic strategy. -/
theorem binding_pattern1_first_fires :
    (∀ (rand : Nat → Nat) (env : Env) (fuel : Nat) (a b k : ℚ) (c : Nat),
      evalExpr .binding rand env (fuel + 1)
          (.binOp .add (.binOp .mult (.num a) (.num b)) (.num k)) c
        = .ok (.num (a * (b + k)), c))
    ∧ (∀ rand : Nat → Nat,
      evalExpr .binding rand emptyEnv 9
          (.binOp .add (.binOp .mult (.num 2) (.num 3)) (.num 4)) 0
        = .ok (.num 14, 0))
    ∧ Value.num 14 ≠ Value.num 10
    ∧ (∀ (rand : Nat → Nat) (env : Env) (fuel : Nat) (op : OpKind) (l r : Expr) (c : Nat),
        pat1 op l r = Option.none → pat2 op l r = Option.none →
        pat3 op l r = Option.none → pat4 op l r = Option.none →
        pat5 op l r = Option.none → pat6 op l r = Option.none →
        pat7 op l r = Option.none →
        evalExpr .binding rand env (fuel + 1) (.binOp op l r) c
          = genericBinOp .binding rand (evalExpr .binding rand env fuel) op l r c)
    ∧ (∀ (rand : Nat → Nat) (env : Env) (fuel : Nat) (op : OpKind) (a b : ℚ) (c : Nat),
        evalExpr .binding rand env (fuel + 2) (.binOp op (.num a) (.num b)) c
          = evalExpr .det rand env (fuel + 2) (.binOp op (.num a) (.num b)) c) := by
  refine ⟨?_, ?_, ?_, ?_, ?_⟩
  · intro rand env fuel a b k c
    simp [evalExpr, bindingBinOp, pat1]
  · intro rand
    norm_num [evalExpr, bindingBinOp, pat1]
  · intro h
    have : (14 : ℚ) = 10 := Value.num.inj h
    norm_num at this
  · intro rand env fuel op l r c h1 h2 h3 h4 h5 h6 h7
    simp [evalExpr, bindingBinOp, h1, h2, h3, h4, h5, h6, h7]
  · intro rand env fuel op a b c
    cases op <;>
      simp [evalExpr, bindingBinOp, pat1, pat2, pat3, pat4, pat5, pat6, pat7,
        genericBinOp, visitOp]

/-- The C2 theorem applied at a concrete no-pattern node: BinaryOp(Sub,
5, 2) matches none of the seven patterns, so the pattern-rewriting
strategy computes it by the generic rule, agreeing with the
deterministic strategy. -/
theorem binding_pattern1_first_fires_wit :
    evalExpr .binding (fun _ => 1) emptyEnv 9 (.binOp .sub (.num 5) (.num 2)) 0
      = genericBinOp .binding (fun _ => 1) (evalExpr .binding (fun _ => 1) emptyEnv 8)
          .sub (.num 5) (.num 2) 0 := by
  exact binding_pattern1_first_fires.2.2.2.1 (fun _ => 1) emptyEnv 8 .sub (.num 5) (.num 2) 0
    (by decide) (by decide) (by decide) (by decide) (by decide) (by decide) (by decide)

/-- C5 counterexample: running a program whose last (and only)
top-level node is the expression 42 returns the host None, not the
value 42: the run entry point discards the final value. -/
theorem run_last_value_cex :
    runDet 9 [.exprStmt (.num 42)] = .ok Value.none
    ∧ Value.none ≠ Value.num 42 := by
  exact ⟨by decide, by decide⟩

/-- C5 amended: each strategy exposes a run entry point that executes
the top-level statements in order and surfaces any failure to the
caller, but on success it returns Unit (the host None), discarding the
value of the last top-level statement or expression. -/
theorem run_executes_and_returns_unit :
    (∀ (fuel : Nat) (prog : List Stmt) (st' : St),
      execStmts .det (fun _ => 0) fuel prog initSt = .ok st' →
      runDet fuel prog = .ok Value.none)
    ∧ (∀ (fuel : Nat) (prog : List Stmt) (e : Err),
        execStmts .det (fun _ => 0) fuel prog initSt = .error e →
        runDet fuel prog = .error e)
    ∧ (∀ (rand : Nat → Nat) (fuel : Nat) (prog : List Stmt) (st' : St),
        execStmts .stoch rand fuel prog initSt = .ok st' →
        runStoch rand fuel prog = .ok Value.none)
    ∧ (∀ (rand : Nat → Nat) (fuel : Nat) (prog : List Stmt) (e : Err),
        execStmts .stoch rand fuel prog initSt = .error e →
        runStoch rand fuel prog = .error e)
    ∧ (∀ (rand : Nat → Nat) (fuel : Nat) (prog : List Stmt) (st' : St),
        execStmts .binding rand fuel prog initSt = .ok st' →
        runBinding rand fuel prog = .ok Value.none)
    ∧ (∀ (rand : Nat → Nat) (fuel : Nat) (prog : List Stmt) (e : Err),
        execStmts .binding rand fuel prog initSt = .error e →
        runBinding rand fuel prog = .error e) := by
  exact ⟨fun fuel prog st' h => by simp [runDet, h, Except.map],
         fun fuel prog e h => by simp [runDet, h, Except.map],
         fun rand fuel prog st' h => by simp [runStoch, h, Except.map],
         fun rand fuel prog e h => by simp [runStoch, h, Except.map],
         fun rand fuel prog st' h => by simp [runBinding, h, Except.map],
         fun rand fuel prog e h => by simp [runBinding, h, Except.map]⟩

/-- The C5 amended theorem applied at concrete programs: a successful
run returns Unit, and a failing statement's error surfaces through
run. -/
theorem run_executes_and_returns_unit_wit :
    runDet 9 [.assign "x" [] (.num 1)] = .ok Value.none
    ∧ runDet 9 [.exprStmt (.name "y")] = .error (.undefinedVariable "y") := by
  constructor
  · exact run_executes_and_returns_unit.1 9 [.assign "x" [] (.num 1)]
      ⟨setVar emptyEnv "x" (.num 1), 0⟩ rfl
  · exact run_executes_and_returns_unit.2.1 9 [.exprStmt (.name "y")]
      (.undefinedVariable "y") rfl

/-- C6: under the fault-injecting strategy, evaluating Name(x) when x
is bound returns either the bound value (draw 0) or the string x itself
(draw 1), and nothing else; when x is unbound it fails with
UndefinedVariable regardless of any random draw.  The last conjunct
ties visitName to the evaluation of a Name node. -/
theorem stochastic_name_outcomes :
    (∀ (rand : Nat → Nat) (env : Env) (x : String) (v : Value) (c : Nat),
      env x = some v →
      (rand c % 2 = 0 → visitName .stoch rand env x c = .ok (v, c + 1))
      ∧ (rand c % 2 = 1 → visitName .stoch rand env x c = .ok (.str x, c + 1))
      ∧ (visitName .stoch rand env x c = .ok (v, c + 1)
          ∨ visitName .stoch rand env x c = .ok (.str x, c + 1)))
    ∧ (∀ (rand : Nat → Nat) (env : Env) (x : String) (c : Nat),
        env x = Option.none →
        visitName .stoch rand env x c = .error (.undefinedVariable x))
    ∧ (∀ (rand : Nat → Nat) (env : Env) (fuel : Nat) (x : String) (c : Nat),
        evalExpr .stoch rand env (fuel + 1) (.name x) c = visitName .stoch rand env x c) := by
  refine ⟨?_, ?_, fun _ _ _ _ _ => rfl⟩
  · intro rand env x v c h
    refine ⟨fun h0 => by simp [visitName, h, h0], fun h1 => by simp [visitName, h, h1], ?_⟩
    rcases Nat.mod_two_eq_zero_or_one (rand c) with h0 | h1
    · exact Or.inl (by simp [visitName, h, h0])
    · exact Or.inr (by simp [visitName, h, h1])
  · intro rand env x c h
    simp [visitName, h]

/-- The C6 theorem applied at concrete inputs: with x bound to 5 and an
oracle always drawing 1, Name(x) evaluates to the string "x"; with an
empty environment it fails with UndefinedVariable. -/
theorem stochastic_name_outcomes_wit :
    visitName .stoch (fun _ => 1) (setVar emptyEnv "x" (.num 5)) "x" 0 = .ok (.str "x", 1)
    ∧ visitName .stoch (fun _ => 1) emptyEnv "x" 0 = .error (.undefinedVariable "x") := by
  constructor
  · exact ((stochastic_name_outcomes.1 (fun _ => 1) (setVar emptyEnv "x" (.num 5)) "x"
      (.num 5) 0 (by decide)).2.1) (by decide)
  · exact stochastic_name_outcomes.2.1 (fun _ => 1) emptyEnv "x" 0 rfl

/-- C7: under the pattern-rewriting strategy, a BinaryOp of the
four-numeric-leaf shape (a+(b/c))+d evaluates, depending on the uniform
three-way draw, to exactly one of the three rewrites ((a+b)/c)+d,
(a+b)/(c+d), or a+(b/(c+d)), and to no other value. -/
theorem binding_four_term_rewrites :
    ∀ (rand : Nat → Nat) (env : Env) (fuel : Nat) (a b k d : ℚ) (c : Nat),
      (rand c % 3 = 0 →
        evalExpr .binding rand env (fuel + 1)
            (.binOp .add (.binOp .add (.num a) (.binOp .div (.num b) (.num k))) (.num d)) c
          = .ok (.num ((a + b) / k + d), c + 1))
      ∧ (rand c % 3 = 1 →
        evalExpr .binding rand env (fuel + 1)
            (.binOp .add (.binOp .add (.num a) (.binOp .div (.num b) (.num k))) (.num d)) c
          = .ok (.num ((a + b) / (k + d)), c + 1))
      ∧ (rand c % 3 = 2 →
        evalExpr .binding rand env (fuel + 1)
            (.binOp .add (.binOp .add (.num a) (.binOp .div (.num b) (.num k))) (.num d)) c
          = .ok (.num (a + b / (k + d)), c + 1))
      ∧ (evalExpr .binding rand env (fuel + 1)
            (.binOp .add (.binOp .add (.num a) (.binOp .div (.num b) (.num k))) (.num d)) c
          = .ok (.num ((a + b) / k + d), c + 1)
        ∨ evalExpr .binding rand env (fuel + 1)
            (.binOp .add (.binOp .add (.num a) (.binOp .div (.num b) (.num k))) (.num d)) c
          = .ok (.num ((a + b) / (k + d)), c + 1)
        ∨ evalExpr .binding rand env (fuel + 1)
            (.binOp .add (.binOp .add (.num a) (.binOp .div (.num b) (.num k))) (.num d)) c
          = .ok (.num (a + b / (k + d)), c + 1)) := by
  intro rand env fuel a b k d c
  have h0 : ∀ j, rand c % 3 = j → j < 3 →
      evalExpr .binding rand env (fuel + 1)
          (.binOp .add (.binOp .add (.num a) (.binOp .div (.num b) (.num k))) (.num d)) c
        = (if j = 0 then .ok (.num ((a + b) / k + d), c + 1)
           else if j = 1 then .ok (.num ((a + b) / (k + d)), c + 1)
           else .ok (.num (a + b / (k + d)), c + 1)) := by
    intro j hj _
    simp [evalExpr, bindingBinOp, pat1, pat2, pat3, pat4, pat5, pat6, pat7, hj]
  have hlt : rand c % 3 < 3 := Nat.mod_lt _ (by norm_num)
  refine ⟨fun h => by simpa using h0 0 h (by norm_num),
          fun h => by simpa using h0 1 h (by norm_num),
          fun h => by simpa using h0 2 h (by norm_num), ?_⟩
  interval_cases h : rand c % 3
  · exact Or.inl (by simpa using h0 0 rfl (by norm_num))
  · exact Or.inr (Or.inl (by simpa using h0 1 rfl (by norm_num)))
  · exact Or.inr (Or.inr (by simpa using h0 2 rfl (by norm_num)))

/-- The C7 theorem applied at the source comment's example
(4 + 2/2) + 9 with an oracle drawing 1: the second rewrite
(a+b)/(c+d) is chosen. -/
theorem binding_four_term_rewrites_wit :
    evalExpr .binding (fun _ => 1) emptyEnv 9
        (.binOp .add (.binOp .add (.num 4) (.binOp .div (.num 2) (.num 2))) (.num 9)) 0
      = .ok (.num ((4 + 2) / (2 + 9)), 1) :=
  (binding_four_term_rewrites (fun _ => 1) emptyEnv 8 4 2 2 9 0).2.1 rfl

/-- C8: evaluating Call(f, args) resolves f first against the fixed
Builtins table ({print}) and, only if absent there, against the
Environment; if f resolves in neither, evaluation fails with
UndefinedFunction (Call("nope", []) with an empty environment fails so);
when f resolves to the print builtin, the argument expressions are
evaluated left-to-right and the call returns print's result None —
this holds for every environment, so an environment binding of the
name "print" never shadows the builtin; when f resolves only in the
environment, the arguments are still evaluated left-to-right and the
host then rejects the non-callable value. -/
theorem call_resolution_order :
    (∀ (rand : Nat → Nat) (env : Env) (fuel : Nat) (f : String) (args : List Expr) (c : Nat),
      f ≠ "print" → env f = Option.none →
      evalExpr .det rand env (fuel + 1) (.call f args) c = .error (.undefinedFunction f))
    ∧ (∀ (rand : Nat → Nat) (env : Env) (fuel : Nat) (args : List Expr) (c : Nat),
        evalExpr .det rand env (fuel + 1) (.call "print" args) c
          = (evalListWith (evalExpr .det rand env fuel) args c).map
              (fun p => (Value.none, p.2)))
    ∧ (∀ (rand : Nat → Nat) (env : Env) (fuel : Nat) (f : String) (v : Value)
        (args : List Expr) (c : Nat),
        f ≠ "print" → env f = some v →
        evalExpr .det rand env (fuel + 1) (.call f args) c
          = (evalListWith (evalExpr .det rand env fuel) args c).bind
              (fun _ => .error .typeMismatch))
    ∧ (∀ (f : Expr → Nat → Except Err (Value × Nat)) (e : Expr) (es : List Expr) (c : Nat),
        evalListWith f (e :: es) c = do
          let (v, c1) ← f e c
          let (vs, c2) ← evalListWith f es c1
          .ok (v :: vs, c2))
    ∧ evalExpr .det (fun _ => 0) emptyEnv 9 (.call "nope" []) 0
        = .error (.undefinedFunction "nope")
    ∧ evalExpr .det (fun _ => 0) (setVar emptyEnv "print" (.num 9)) 9
        (.call "print" [.num 1]) 0 = .ok (.none, 0) := by
  refine ⟨?_, ?_, ?_, fun _ _ _ _ => rfl, by decide, by decide⟩
  · intro rand env fuel f args c hf he
    simp [evalExpr, hf, he]
  · intro rand env fuel args c
    cases h : evalListWith (evalExpr .det rand env fuel) args c with
    | error e => simp [evalExpr, h, Bind.bind, Except.bind, Except.map]
    | ok p =>
      obtain ⟨vs, c1⟩ := p
      simp [evalExpr, h, Bind.bind, Except.bind, Except.map]
  · intro rand env fuel f v args c hf he
    cases h : evalListWith (evalExpr .det rand env fuel) args c with
    | error e => simp [evalExpr, hf, he, h, Bind.bind, Except.bind]
    | ok p =>
      obtain ⟨vs, c1⟩ := p
      simp [evalExpr, hf, he, h, Bind.bind, Except.bind]

/-- The C8 theorem applied at concrete inputs: an unknown name fails
with UndefinedFunction, and a name bound in the environment but not in
Builtins has its arguments evaluated and is then rejected as
non-callable. -/
theorem call_resolution_order_wit :
    evalExpr .det (fun _ => 0) (setVar emptyEnv "f" (.num 9)) 9 (.call "g" []) 0
      = .error (.undefinedFunction "g")
    ∧ evalExpr .det (fun _ => 0) (setVar emptyEnv "f" (.num 9)) 9 (.call "f" [.num 1]) 0
      = (evalListWith (evalExpr .det (fun _ => 0) (setVar emptyEnv "f" (.num 9)) 8)
          [.num 1] 0).bind (fun _ => .error .typeMismatch) := by
  constructor
  · exact call_resolution_order.1 (fun _ => 0) (setVar emptyEnv "f" (.num 9)) 8 "g" [] 0
      (by decide) (by decide)
  · exact call_resolution_order.2.2.1 (fun _ => 0) (setVar emptyEnv "f" (.num 9)) 8 "f"
      (.num 9) [.num 1] 0 (by decide) (by decide)

/-- C9: under the deterministic strategy, executing AugAssign(x, op, e)
is equivalent to executing Assign(x, BinaryOp(op, Name(x), e)) — in
particular for op = Add — producing the same result state (or the same
error) from every starting state; and AugAssign fails with
UndefinedVariable when x was never previously assigned.  The fuel
offsets account for the extra BinaryOp node on the Assign side. -/
theorem augAssign_assign_equiv :
    (∀ (rand : Nat → Nat) (g : Nat) (x : String) (op : OpKind) (e : Expr) (st : St),
      execStmts .det rand (g + 2) [.augAssign x op e] st
        = execStmts .det rand (g + 3) [.assign x [] (.binOp op (.name x) e)] st)
    ∧ (∀ (rand : Nat → Nat) (g : Nat) (x : String) (e : Expr) (st : St),
        st.env x = Option.none →
        execStmts .det rand (g + 2) [.augAssign x .add e] st
          = .error (.undefinedVariable x)) := by
  constructor
  · intro rand g x op e st
    show execStmts .det rand ((g + 1) + 1) [.augAssign x op e] st
      = execStmts .det rand (((g + 1) + 1) + 1) [.assign x [] (.binOp op (.name x) e)] st
    cases hx : st.env x with
    | none =>
      simp [execStmts, evalExpr, genericBinOp, visitOp, visitName, hx, Bind.bind, Except.bind]
    | some v =>
      cases he : evalExpr .det rand st.env (g + 1) e st.ctr with
      | error err =>
        simp [execStmts, evalExpr, genericBinOp, visitOp, visitName, hx, he,
          Bind.bind, Except.bind]
      | ok p =>
        obtain ⟨w, c2⟩ := p
        cases ha : applyOp op v w with
        | error err =>
          simp [execStmts, evalExpr, genericBinOp, visitOp, visitName, hx, he, ha,
            Bind.bind, Except.bind]
        | ok u =>
          simp [execStmts, evalExpr, genericBinOp, visitOp, visitName, hx, he, ha,
            Bind.bind, Except.bind]
  · intro rand g x e st hx
    show execStmts .det rand ((g + 1) + 1) [.augAssign x .add e] st
      = .error (.undefinedVariable x)
    simp [execStmts, visitOp, visitName, hx, Bind.bind, Except.bind]

/-- The C9 theorem applied at concrete inputs: x bound to 3 then
augmented by 4 gives the same final state along both forms, and an
AugAssign to a never-assigned variable fails with UndefinedVariable. -/
theorem augAssign_assign_equiv_wit :
    execStmts .det (fun _ => 0) 3 [.augAssign "x" .add (.num 4)]
        ⟨setVar emptyEnv "x" (.num 3), 0⟩
      = execStmts .det (fun _ => 0) 4
          [.assign "x" [] (.binOp .add (.name "x") (.num 4))]
          ⟨setVar emptyEnv "x" (.num 3), 0⟩
    ∧ execStmts .det (fun _ => 0) 2 [.augAssign "x" .add (.num 4)] initSt
      = .error (.undefinedVariable "x") :=
  ⟨augAssign_assign_equiv.1 (fun _ => 0) 1 "x" .add (.num 4) ⟨setVar emptyEnv "x" (.num 3), 0⟩,
   augAssign_assign_equiv.2 (fun _ => 0) 0 "x" (.num 4) initSt rfl⟩

/-- C10: when an Assign node's targets sequence contains more than one
target, only the first target is bound in the environment; the
remaining targets are ignored entirely (execution coincides with the
single-target Assign), and any variable other than the first target
keeps its previous binding (so an extra target not otherwise bound
stays unbound). -/
theorem assign_first_target_only :
    (∀ (s : Strat) (rand : Nat → Nat) (fuel : Nat) (t : String) (extra : List String)
        (e : Expr) (rest : List Stmt) (st : St),
      execStmts s rand fuel (.assign t extra e :: rest) st
        = execStmts s rand fuel (.assign t [] e :: rest) st)
    ∧ (∀ (s : Strat) (rand : Nat → Nat) (g : Nat) (t : String) (extra : List String)
        (e : Expr) (st : St) (v : Value) (c : Nat),
        evalExpr s rand st.env g e st.ctr = .ok (v, c) →
        execStmts s rand (g + 1) [.assign t extra e] st = .ok ⟨setVar st.env t v, c⟩)
    ∧ (∀ (env : Env) (t y : String) (v : Value), y ≠ t → setVar env t v y = env y)
    ∧ (∀ (env : Env) (t : String) (v : Value), setVar env t v t = some v)
    ∧ lookupResult (execStmts .det (fun _ => 0) 9 [.assign "x" ["y"] (.num 5)] initSt) "x"
        = some (.num 5)
    ∧ lookupResult (execStmts .det (fun _ => 0) 9 [.assign "x" ["y"] (.num 5)] initSt) "y"
        = Option.none := by
  refine ⟨?_, ?_, ?_, ?_, by decide, by decide⟩
  · intro s rand fuel t extra e rest st
    cases fuel with
    | zero => rfl
    | succ fuel => rfl
  · intro s rand g t extra e st v c he
    simp [execStmts, he, Bind.bind, Except.bind]
  · intro env t y v hy
    simp [setVar, hy]
  · intro env t v
    simp [setVar]

/-- The C10 theorem applied at concrete inputs: Assign with chained
targets a, b binds a to 5 and leaves b untouched. -/
theorem assign_first_target_only_wit :
    execStmts .det (fun _ => 0) 2 [.assign "a" ["b"] (.num 5)] initSt
      = .ok ⟨setVar emptyEnv "a" (.num 5), 0⟩
    ∧ setVar emptyEnv "a" (Value.num 5) "b" = emptyEnv "b" :=
  ⟨assign_first_target_only.2.1 .det (fun _ => 0) 1 "a" ["b"] (.num 5) initSt
      (.num 5) 0 rfl,
   assign_first_target_only.2.2.1 emptyEnv "a" "b" (.num 5) (by decide)⟩

/-- Expressions that touch none of the dispatch cases the stochastic
class overrides: no Name lookup and no Mod operator anywhere. -/
inductive NoFaultExpr : Expr → Prop where
  | num : ∀ q, NoFaultExpr (.num q)
  | str : ∀ s, NoFaultExpr (.str s)
  | binOp : ∀ op l r, op ≠ .mod → NoFaultExpr l → NoFaultExpr r → NoFaultExpr (.binOp op l r)
  | compare : ∀ l ops comps, NoFaultExpr l → (∀ e ∈ comps, NoFaultExpr e) →
      NoFaultExpr (.compare l ops comps)
  | call : ∀ f args, (∀ e ∈ args, NoFaultExpr e) → NoFaultExpr (.call f args)

/-- Statements that touch none of the overridden dispatch cases: no If
statement, no AugAssign (whose target read dispatches through the
overridden Name case), and only NoFaultExpr expressions. -/
inductive NoFaultStmt : Stmt → Prop where
  | assign : ∀ t extra e, NoFaultExpr e → NoFaultStmt (.assign t extra e)
  | exprStmt : ∀ e, NoFaultExpr e → NoFaultStmt (.exprStmt e)
  | whileStmt : ∀ t body, NoFaultExpr t → (∀ stmt ∈ body, NoFaultStmt stmt) →
      NoFaultStmt (.whileStmt t body)

/-- Operator resolution ignores the strategy except at Mod under the
stochastic class. -/
theorem visitOp_not_mod (op : OpKind) (hop : op ≠ .mod) :
    ∀ (s : Strat) (rand : Nat → Nat) (c : Nat), visitOp s rand op c = (op, c) := by
  intro s rand c
  cases s <;> cases op <;> first | rfl | exact absurd rfl hop

/-- Pointwise-equal element evaluators give equal list evaluations. -/
theorem evalListWith_congr (f g : Expr → Nat → Except Err (Value × Nat)) :
    ∀ (es : List Expr), (∀ e ∈ es, ∀ c, f e c = g e c) →
    ∀ c, evalListWith f es c = evalListWith g es c := by
  intro es
  induction es with
  | nil => intro _ _; rfl
  | cons e es ih =>
    intro h c
    have he := h e (List.mem_cons_self ..)
    have hes := ih (fun x hx => h x (List.mem_cons_of_mem _ hx))
    simp only [evalListWith, he, hes]

/-- On expressions free of Name and Mod, the stochastic evaluator
coincides with the deterministic one (same value, same draw counter:
no randomness is consumed). -/
theorem evalExpr_noFault_eq (rand : Nat → Nat) (env : Env) :
    ∀ (e : Expr), NoFaultExpr e →
    ∀ (fuel : Nat) (c : Nat),
      evalExpr .stoch rand env fuel e c = evalExpr .det rand env fuel e c := by
  intro e he
  induction he with
  | num q => intro fuel c; cases fuel <;> rfl
  | str s => intro fuel c; cases fuel <;> rfl
  | binOp op l r hop hl hr ihl ihr =>
    intro fuel c
    cases fuel with
    | zero => rfl
    | succ f =>
      simp only [evalExpr, genericBinOp, ihl, ihr, visitOp_not_mod op hop]
  | compare l ops comps hl hcomps ihl ihcomps =>
    intro fuel c
    cases fuel with
    | zero => rfl
    | succ f =>
      have hlist := evalListWith_congr (evalExpr .stoch rand env f) (evalExpr .det rand env f)
        comps (fun e hemem c' => ihcomps e hemem f c')
      simp only [evalExpr, ihl, hlist]
  | call f args hargs ihargs =>
    intro fuel c
    cases fuel with
    | zero => rfl
    | succ fu =>
      have hlist := evalListWith_congr (evalExpr .stoch rand env fu) (evalExpr .det rand env fu)
        args (fun e hemem c' => ihargs e hemem fu c')
      simp only [evalExpr, hlist]

/-- On programs free of Name, Mod, AugAssign and If, the stochastic
executor coincides with the deterministic one from every state. -/
theorem execStmts_noFault_eq (rand : Nat → Nat) :
    ∀ (fuel : Nat) (prog : List Stmt), (∀ stmt ∈ prog, NoFaultStmt stmt) →
    ∀ st, execStmts .stoch rand fuel prog st = execStmts .det rand fuel prog st := by
  intro fuel
  induction fuel with
  | zero =>
    intro prog _ st
    cases prog <;> rfl
  | succ f ih =>
    intro prog h st
    cases prog with
    | nil => rfl
    | cons stmt rest =>
      have hstmt := h stmt (List.mem_cons_self ..)
      have hrest : ∀ s ∈ rest, NoFaultStmt s := fun s hs => h s (List.mem_cons_of_mem _ hs)
      cases hstmt with
      | assign t extra e hne =>
        simp only [execStmts, evalExpr_noFault_eq rand st.env e hne, ih rest hrest]
      | exprStmt e hne =>
        simp only [execStmts, evalExpr_noFault_eq rand st.env e hne, ih rest hrest]
      | whileStmt t body hnt hnbody =>
        have hloop : ∀ s ∈ (Stmt.whileStmt t body :: rest), NoFaultStmt s := by
          intro s hs
          rcases List.mem_cons.mp hs with rfl | hs
          · exact NoFaultStmt.whileStmt t body hnt hnbody
          · exact hrest s hs
        have hbody : ∀ s ∈ body, NoFaultStmt s := hnbody
        simp only [execStmts, evalExpr_noFault_eq rand st.env t hnt, ih body hbody,
          ih rest hrest, ih _ hloop]

/-- C3 counterexample: the fault-injecting class overrides three
dispatch cases, not two — with an oracle always drawing 1, the
stochastic strategy disagrees with the deterministic strategy on a
Name lookup, on a Mod operator resolution, and on an If statement, so
more than two dispatch cases deviate from the deterministic
strategy. -/
theorem stochastic_overrides_cex :
    evalExpr .stoch (fun _ => 1) (setVar emptyEnv "x" (.num 5)) 9 (.name "x") 0
      ≠ evalExpr .det (fun _ => 1) (setVar emptyEnv "x" (.num 5)) 9 (.name "x") 0
    ∧ evalExpr .stoch (fun _ => 1) emptyEnv 9 (.binOp .mod (.num 7) (.num 2)) 0
      ≠ evalExpr .det (fun _ => 1) emptyEnv 9 (.binOp .mod (.num 7) (.num 2)) 0
    ∧ lookupResult (execStmts .stoch (fun _ => 1) 9
        [.ifStmt (.num 1) [.assign "r" [] (.num 1)] [.assign "r" [] (.num 2)]] initSt) "r"
      ≠ lookupResult (execStmts .det (fun _ => 1) 9
        [.ifStmt (.num 1) [.assign "r" [] (.num 1)] [.assign "r" [] (.num 2)]] initSt) "r" := by
  refine ⟨by decide, ?_, by decide⟩
  have h1 : evalExpr .stoch (fun _ => 1) emptyEnv 9 (.binOp .mod (.num 7) (.num 2)) 0
      = .ok (.num (7 / 2), 1) := by
    norm_num [evalExpr, genericBinOp, visitOp, applyOp, toNum?, numOp, Bind.bind, Except.bind]
  have h2 : evalExpr .det (fun _ => 1) emptyEnv 9 (.binOp .mod (.num 7) (.num 2)) 0
      = .ok (.num 1, 0) := by
    norm_num [evalExpr, genericBinOp, visitOp, applyOp, toNum?, numOp, Bind.bind, Except.bind]
  rw [h1, h2]
  simp

/-- C3 amended: the fault-injecting strategy overrides exactly three
dispatch cases of the deterministic strategy — Name resolution, Mod
operator resolution, and If execution (each shown to deviate by the
counterexample) — and every dispatch case other than those behaves
exactly as the deterministic strategy: on any expression or program
containing no Name lookup (including AugAssign's target read, which
dispatches through Name), no Mod operator, and no If statement, the
stochastic strategy computes the same result, same errors, and same
draw counter as the deterministic strategy. -/
theorem stochastic_unoverridden_cases_det :
    (∀ (rand : Nat → Nat) (env : Env) (e : Expr), NoFaultExpr e →
      ∀ (fuel : Nat) (c : Nat),
        evalExpr .stoch rand env fuel e c = evalExpr .det rand env fuel e c)
    ∧ (∀ (rand : Nat → Nat) (fuel : Nat) (prog : List Stmt),
        (∀ stmt ∈ prog, NoFaultStmt stmt) →
        ∀ st, execStmts .stoch rand fuel prog st = execStmts .det rand fuel prog st) :=
  ⟨fun rand env => evalExpr_noFault_eq rand env,
   fun rand => execStmts_noFault_eq rand⟩

/-- The C3 amended theorem applied at a concrete program exercising
BinaryOp, Compare, Call, Assign, ExprStmt and While: the stochastic
strategy executes it exactly as the deterministic one. -/
theorem stochastic_unoverridden_cases_det_wit :
    execStmts .stoch (fun _ => 1) 9
        [.assign "x" [] (.binOp .add (.num 1) (.num 2)),
         .whileStmt (.num 0) [.exprStmt (.num 3)],
         .exprStmt (.call "print" [.compare (.num 1) [.lt] [.num 2]])] initSt
      = execStmts .det (fun _ => 1) 9
        [.assign "x" [] (.binOp .add (.num 1) (.num 2)),
         .whileStmt (.num 0) [.exprStmt (.num 3)],
         .exprStmt (.call "print" [.compare (.num 1) [.lt] [.num 2]])] initSt := by
  refine stochastic_unoverridden_cases_det.2 (fun _ => 1) 9 _ ?_ initSt
  intro stmt hs
  simp only [List.mem_cons, List.not_mem_nil, or_false] at hs
  rcases hs with rfl | rfl | rfl
  · exact NoFaultStmt.assign _ _ _
      (NoFaultExpr.binOp _ _ _ (by decide) (NoFaultExpr.num 1) (NoFaultExpr.num 2))
  · refine NoFaultStmt.whileStmt _ _ (NoFaultExpr.num 0) ?_
    intro s hs
    simp only [List.mem_singleton] at hs
    subst hs
    exact NoFaultStmt.exprStmt _ (NoFaultExpr.num 3)
  · refine NoFaultStmt.exprStmt _ (NoFaultExpr.call _ _ ?_)
    intro e he
    simp only [List.mem_singleton] at he
    subst he
    refine NoFaultExpr.compare _ _ _ (NoFaultExpr.num 1) ?_
    intro e he
    simp only [List.mem_singleton] at he
    subst he
    exact NoFaultExpr.num 2

end Pylite
